import Mathlib

/-!
# UDP latency probe: sender (`udp_sender.cpp`) and receiver (`udp_sniffer.cpp`)

A shallow embedding of the two programs and the properties of their wire
format, send loop, receive/drain loop and exit paths.

Conventions of the embedding.

* A `char` cell is a `Byte` (`Fin 256`); a buffer is a `List Byte`.
* `uint64_t` values are `Nat` reduced modulo `2^64`; `long long` values are
  `Int`, brought back into the signed 64-bit range by `wrapInt64` after
  arithmetic.
* `memcpy` of a `uint64_t` uses the byte order of the host.  The byte order is
  a parameter (`ByteOrder`) shared by whoever encodes and decodes.
* The operating system (clock, `sendto`, `poll`, `recvfrom`, `SIGINT`) is an
  explicit environment: oracles indexed by call number for the sender, a list
  of `Tick`s for the receiver.
-/

namespace UdpProbe

/-! ## Machine integers -/

/-- One `char` of a buffer. -/
abbrev Byte := Fin 256

/-- The number of `uint64_t` values, `2^64`. -/
def U64_MOD : Nat := 18446744073709551616

/-- The number of non-negative `long long` values, `2^63`. -/
def I64_HALF : Nat := 9223372036854775808

/-- The bit pattern of a `long long` seen as a `uint64_t`
(`memcpy(..., &now_ns, sizeof(uint64_t))`). -/
def toU64 (x : Int) : Nat := (x % (U64_MOD : Int)).toNat

/-- The conversion `static_cast<long long>(u)` of a `uint64_t`. -/
def toInt64 (u : Nat) : Int :=
  if u % U64_MOD < I64_HALF then ((u % U64_MOD : Nat) : Int)
  else ((u % U64_MOD : Nat) : Int) - (U64_MOD : Int)

/-- The result of `long long` arithmetic, reduced to the signed 64-bit range
(two's complement wrap-around). -/
def wrapInt64 (x : Int) : Int := toInt64 (toU64 x)

/-- Whether a mathematical integer is representable as a `long long`. -/
def fitsInt64 (x : Int) : Prop := -(I64_HALF : Int) ≤ x ∧ x < (I64_HALF : Int)

instance (x : Int) : Decidable (fitsInt64 x) := by
  unfold fitsInt64; infer_instance

/-! ## Wire format: `struct PayloadHeader { uint64_t seq; uint64_t send_ns; }` -/

/-- The byte order of the host, which `memcpy` of an integer exposes. -/
inductive ByteOrder where
  | little
  | big
  deriving DecidableEq, Repr

/-- The value `sizeof(PayloadHeader)`: two `uint64_t` fields. -/
def headerSize : Nat := 16

/-- The `k` low bytes of `v`, least significant first. -/
def bytesLE (v : Nat) : Nat → List Byte
  | 0 => []
  | k + 1 => Fin.ofNat (v % 256) :: bytesLE (v / 256) k

/-- The value of a byte string read least significant byte first. -/
def valLE : List Byte → Nat
  | [] => 0
  | b :: bs => b.val + 256 * valLE bs

/-- The eight bytes of the object representation of a `uint64_t`. -/
def storeU64 (o : ByteOrder) (v : Nat) : List Byte :=
  match o with
  | ByteOrder.little => bytesLE v 8
  | ByteOrder.big => (bytesLE v 8).reverse

/-- The `uint64_t` whose object representation is the given eight bytes. -/
def loadU64 (o : ByteOrder) (bs : List Byte) : Nat :=
  match o with
  | ByteOrder.little => valLE bs
  | ByteOrder.big => valLE bs.reverse

/-- The call `memcpy(buf.data() + off, src, src.size())`: the cells
`off .. off + src.length - 1` of `buf` are overwritten and the size of `buf`
is unchanged.  The sender calls it with the copied range inside the buffer,
which the clamp of lines 38-39 ensures; bytes that would fall beyond the last
cell are not cells of the buffer and are not kept. -/
def memcpyInto (buf : List Byte) (off : Nat) (src : List Byte) : List Byte :=
  (buf.take off ++ src ++ buf.drop (off + src.length)).take buf.length

/-- The `len` cells read by `memcpy(&x, buf.data() + off, len)`.  The
receiver's buffer has 65536 cells, so the cells read are always present; a
shorter list reads as zero beyond its end. -/
def readBytes (buf : List Byte) (off len : Nat) : List Byte :=
  (List.range len).map (fun i => buf.getD (off + i) 0)

/-- Sender, lines 63-64: the header is copied over the first 16 cells of the
packet buffer. -/
def fillHeader (o : ByteOrder) (seq : Nat) (nowNs : Int) (buf : List Byte) : List Byte :=
  memcpyInto (memcpyInto buf 0 (storeU64 o seq)) 8 (storeU64 o (toU64 nowNs))

/-- Sender, lines 38-39: a packet size below the header size is raised to it. -/
def clampPktBytes (pktBytes : Nat) : Nat :=
  if pktBytes < headerSize then headerSize else pktBytes

/-- Sender, line 57: `std::vector<char> buf(pkt_bytes, 0)`, the vector the
constructor returns: `pkt_bytes` cells, all zero. -/
def initialBuf (pktBytes : Nat) : List Byte :=
  List.replicate (clampPktBytes pktBytes) 0

/-- Receiver, lines 129-134: `seq` and `send_ns` start at 0 and are read from
the buffer only when the datagram holds a full header. -/
def decodeHeader (o : ByteOrder) (buf : List Byte) (n : Int) : Nat × Nat :=
  if n ≥ (headerSize : Int) then
    (loadU64 o (readBytes buf 0 8), loadU64 o (readBytes buf 8 8))
  else (0, 0)

/-! ## Receiver: one observation -/

/-- One data row of the CSV log. -/
structure Row where
  seq : Nat
  recvBytes : Int
  latencyUs : Int
  recvNs : Int
  deriving DecidableEq, Repr

/-- The sequence written for a datagram shorter than the header. -/
def sentinelSeq : Nat := 0

/-- The latency written for a datagram shorter than the header. -/
def sentinelLatency : Int := -1

/-- Receiver, lines 136-138: the latency in microseconds. -/
def latencyUs (n : Int) (nowNs : Int) (sendNs : Nat) : Int :=
  if n ≥ (headerSize : Int) then
    Int.tdiv (wrapInt64 (nowNs - toInt64 sendNs)) 1000
  else -1

/-- Receiver, lines 125-140: the row written for a datagram of length `n`
found in `buf`, with the clock reading `nowNs` taken after `recvfrom`. -/
def observe (o : ByteOrder) (buf : List Byte) (n : Int) (nowNs : Int) : Row :=
  let hdr := decodeHeader o buf n
  { seq := hdr.1, recvBytes := n, latencyUs := latencyUs n nowNs hdr.2, recvNs := nowNs }

/-- Receiver, line 82: the header line of the CSV. -/
def csvHeader : String := "seq,recv_bytes,latency_us,recv_ns\n"

/-- Receiver, line 140: the text of one row. -/
def renderRow (r : Row) : String :=
  toString r.seq ++ "," ++ toString r.recvBytes ++ "," ++ toString r.latencyUs ++ ","
    ++ toString r.recvNs ++ "\n"

/-! ## Sender: `main` of `udp_sender.cpp` -/

/-- The parsed command line of the sender (lines 24-36). -/
structure SenderArgs where
  argc : Nat
  total : Nat
  pktBytes : Nat
  intervalUs : Int

/-- What the operating system answers to the sender: whether `socket` and
`inet_pton` succeed, the clock reading taken before the `i`-th `sendto` call,
and whether the `i`-th `sendto` call succeeds (calls are counted from 0). -/
structure SenderEnv where
  socketOk : Bool
  ipOk : Bool
  nowNs : Nat → Int
  sendOk : Nat → Bool

/-- The variables of the send loop, with the datagrams accepted by `sendto`
so far and the number of `sleep_for` calls. -/
structure SendState where
  seq : Nat
  calls : Nat
  buf : List Byte
  sent : List (List Byte)
  sleeps : Nat

/-- How control stands with respect to the send loop. -/
inductive LoopExit where
  | condFalse
  | sendFailed
  | running
  deriving DecidableEq, Repr

/-- Sender, lines 58-77: `for (uint64_t seq = 1; seq <= total; ++seq)`.  The
first argument bounds the number of iterations executed; `LoopExit.running`
is returned when the bound is reached with the loop still going. -/
def sendLoop (o : ByteOrder) (total : Nat) (intervalUs : Int) (env : SenderEnv) :
    Nat → SendState → LoopExit × SendState
  | 0, st => (LoopExit.running, st)
  | fuel + 1, st =>
    if st.seq ≤ total then
      let buf := fillHeader o st.seq (env.nowNs st.calls) st.buf
      if env.sendOk st.calls then
        sendLoop o total intervalUs env fuel
          { seq := (st.seq + 1) % U64_MOD
            calls := st.calls + 1
            buf := buf
            sent := st.sent ++ [buf]
            sleeps := if intervalUs > 0 then st.sleeps + 1 else st.sleeps }
      else
        (LoopExit.sendFailed, { st with buf := buf, calls := st.calls + 1 })
    else (LoopExit.condFalse, st)

/-- The state of the send loop after `k` iterations whose sends all succeed. -/
def sendAfter (o : ByteOrder) (intervalUs : Int) (env : SenderEnv) :
    Nat → SendState → SendState
  | 0, st => st
  | k + 1, st =>
    let buf := fillHeader o st.seq (env.nowNs st.calls) st.buf
    sendAfter o intervalUs env k
      { seq := (st.seq + 1) % U64_MOD
        calls := st.calls + 1
        buf := buf
        sent := st.sent ++ [buf]
        sleeps := if intervalUs > 0 then st.sleeps + 1 else st.sleeps }

/-- The state in which the send loop is entered (lines 57-58). -/
def sendInit (pktBytes : Nat) : SendState :=
  { seq := 1, calls := 0, buf := initialBuf pktBytes, sent := [], sleeps := 0 }

/-- What a run of the sender has produced.  `exitCode` is `none` while the
process is still in its send loop; `socketOpen` tells whether a descriptor
obtained from `socket` has not been passed to `close`. -/
structure SenderResult where
  exitCode : Option Nat
  socketOpen : Bool
  sent : List (List Byte)
  stdout : List String
  stderr : List String

/-- Sender, `main` (lines 22-82), with at most `fuel` loop iterations. -/
def senderMain (o : ByteOrder) (args : SenderArgs) (env : SenderEnv) (fuel : Nat) :
    SenderResult :=
  if args.argc < 6 then
    { exitCode := some 1, socketOpen := false, sent := [], stdout := [], stderr := ["Usage"] }
  else if !env.socketOk then
    { exitCode := some 1, socketOpen := false, sent := [], stdout := [], stderr := ["socket"] }
  else if !env.ipOk then
    { exitCode := some 1, socketOpen := true, sent := [], stdout := [], stderr := ["Bad IP\n"] }
  else
    match sendLoop o args.total args.intervalUs env fuel (sendInit args.pktBytes) with
    | (LoopExit.running, st) =>
      { exitCode := none, socketOpen := true, sent := st.sent, stdout := [], stderr := [] }
    | (LoopExit.condFalse, st) =>
      { exitCode := some 0, socketOpen := false, sent := st.sent,
        stdout := ["Sender done.\n"], stderr := [] }
    | (LoopExit.sendFailed, st) =>
      { exitCode := some 0, socketOpen := false, sent := st.sent,
        stdout := ["Sender done.\n"], stderr := ["sendto"] }

/-- An environment of the sender in which every call succeeds and the clock
advances by one microsecond per call. -/
def steadyEnv : SenderEnv :=
  { socketOk := true, ipOk := true, nowNs := fun i => 1000 * (i : Int), sendOk := fun _ => true }

/-- An environment of the sender in which the `sendto` call number `f` (counted
from 0) fails and every other call succeeds. -/
def failingEnv (f : Nat) : SenderEnv :=
  { socketOk := true, ipOk := true, nowNs := fun i => 1000 * (i : Int),
    sendOk := fun i => i != f }

/-- The sequence number carried by a datagram the sender built. -/
def datagramSeq (o : ByteOrder) (d : List Byte) : Nat := loadU64 o (readBytes d 0 8)

/-! ## Receiver: `main` of `udp_sniffer.cpp` -/

/-- The outcome of one `poll` call (lines 92-103). -/
inductive PollResult where
  | eintr
  | error
  | timeout
  | ready (pollin : Bool)
  deriving DecidableEq, Repr

/-- The outcome of one `recvfrom` call (lines 110-127): a datagram of length
`n` with the content of the buffer after the call and the clock reading taken
next, or one of the three kinds of failure the code tells apart. -/
inductive RecvResult where
  | datagram (n : Nat) (buf : List Byte) (nowNs : Int)
  | wouldBlock
  | eintr
  | error
  deriving DecidableEq, Repr

/-- One answer of the environment to the receiver: whether `SIGINT` was
delivered since the previous step, and what `poll` and `recvfrom` return if
the step calls them. -/
structure Tick where
  sigint : Bool
  poll : PollResult
  recv : RecvResult
  deriving DecidableEq, Repr

/-- The control points of the receive loop. -/
inductive Loc where
  | outerTest
  | pollCall
  | innerTest
  | recvCall
  | exited
  deriving DecidableEq, Repr

/-- The state of the receive loop: control point, the flag `g_stop`, the lines
written to the CSV, the messages passed to `perror`, and the results of the
`recvfrom` calls made so far (a history variable). -/
structure RecvState where
  loc : Loc
  stop : Bool
  log : List String
  stderr : List String
  recvHist : List RecvResult
  deriving DecidableEq, Repr

/-- The row a `recvfrom` result puts in the log, if any. -/
def rowOf (o : ByteOrder) : RecvResult → Option Row
  | RecvResult.datagram n buf nowNs => some (observe o buf (n : Int) nowNs)
  | _ => none

/-- Receiver, lines 90-143: one step of the loop.  A `SIGINT` delivered since
the previous step sets `g_stop` first (`handle_sigint`); then the statement at
the current control point runs. -/
def recvStep (o : ByteOrder) (s0 : RecvState) (t : Tick) : RecvState :=
  let s : RecvState := { s0 with stop := s0.stop || t.sigint }
  match s0.loc with
  | Loc.exited => s0
  | Loc.outerTest =>
    if s.stop then { s with loc := Loc.exited } else { s with loc := Loc.pollCall }
  | Loc.pollCall =>
    match t.poll with
    | PollResult.eintr => { s with loc := Loc.exited }
    | PollResult.error => { s with loc := Loc.outerTest, stderr := s.stderr ++ ["poll"] }
    | PollResult.timeout => { s with loc := Loc.outerTest }
    | PollResult.ready pollin =>
      if pollin then { s with loc := Loc.innerTest } else { s with loc := Loc.outerTest }
  | Loc.innerTest =>
    if s.stop then { s with loc := Loc.outerTest } else { s with loc := Loc.recvCall }
  | Loc.recvCall =>
    match t.recv with
    | RecvResult.datagram n buf nowNs =>
      { s with loc := Loc.innerTest
               log := s.log ++ [renderRow (observe o buf (n : Int) nowNs)]
               recvHist := s.recvHist ++ [t.recv] }
    | RecvResult.wouldBlock =>
      { s with loc := Loc.outerTest, recvHist := s.recvHist ++ [t.recv] }
    | RecvResult.eintr =>
      { s with stop := true, loc := Loc.outerTest, recvHist := s.recvHist ++ [t.recv] }
    | RecvResult.error =>
      { s with loc := Loc.outerTest, stderr := s.stderr ++ ["recvfrom"]
               recvHist := s.recvHist ++ [t.recv] }

/-- The receive loop driven by a trace of environment answers. -/
def recvRun (o : ByteOrder) (s : RecvState) (trace : List Tick) : RecvState :=
  trace.foldl (recvStep o) s

/-- The state in which the receive loop is entered: the header line has been
written (line 82) and `g_stop` is still 0. -/
def recvInit : RecvState :=
  { loc := Loc.outerTest, stop := false, log := [csvHeader], stderr := [], recvHist := [] }

/-- The parsed command line of the receiver and whether `socket`, `inet_pton`,
`bind` and the opening of the CSV succeed (lines 31-81). -/
structure RecvSetup where
  argc : Nat
  socketOk : Bool
  ipOk : Bool
  bindOk : Bool
  csvOk : Bool

/-- What a run of the receiver has produced.  `exitCode` is `none` while the
process is still in its loop; `csv` is `none` when the file was never
opened. -/
structure RecvResultMain where
  exitCode : Option Nat
  socketOpen : Bool
  csv : Option (List String)
  stdout : List String
  stderr : List String

/-- Receiver, `main` (lines 29-148) on a trace of environment answers. -/
def recvMain (o : ByteOrder) (setup : RecvSetup) (trace : List Tick) : RecvResultMain :=
  if setup.argc < 4 then
    { exitCode := some 1, socketOpen := false, csv := none, stdout := [], stderr := ["Usage"] }
  else if !setup.socketOk then
    { exitCode := some 1, socketOpen := false, csv := none, stdout := [], stderr := ["socket"] }
  else if !setup.ipOk then
    { exitCode := some 1, socketOpen := true, csv := none, stdout := [],
      stderr := ["Invalid bind IP\n"] }
  else if !setup.bindOk then
    { exitCode := some 1, socketOpen := true, csv := none, stdout := [], stderr := ["bind"] }
  else if !setup.csvOk then
    { exitCode := some 1, socketOpen := true, csv := none, stdout := [],
      stderr := ["Cannot open CSV for write\n"] }
  else
    let s := recvRun o recvInit trace
    if s.loc = Loc.exited then
      { exitCode := some 0, socketOpen := false, csv := some s.log,
        stdout := ["Sniffer stopped. CSV written.\n"], stderr := s.stderr }
    else
      { exitCode := none, socketOpen := true, csv := some s.log, stdout := [],
        stderr := s.stderr }

/-- A receiver setup in which every call succeeds. -/
def okSetup : RecvSetup :=
  { argc := 4, socketOk := true, ipOk := true, bindOk := true, csvOk := true }

/-- A step of the environment without signal, with `poll` timing out and
`recvfrom` finding nothing. -/
def quietTick : Tick :=
  { sigint := false, poll := PollResult.timeout, recv := RecvResult.wouldBlock }

/-- A run of the receiver: readiness, one datagram of 4 bytes, then `SIGINT`
seen in the drain loop. -/
def drainTrace : List Tick :=
  [quietTick, { quietTick with poll := PollResult.ready true }, quietTick,
   { quietTick with recv := RecvResult.datagram 4 [9, 8, 7, 6] 77 },
   { quietTick with sigint := true }, quietTick]

/-- A run of the receiver in which nothing arrives before `SIGINT`. -/
def idleTrace : List Tick :=
  [quietTick, quietTick, { quietTick with sigint := true }]

/-! ## Lemmas on the wire format -/

theorem bytesLE_length (v k : Nat) : (bytesLE v k).length = k := by
  induction k generalizing v with
  | zero => rfl
  | succ k ih => simp [bytesLE, ih]

theorem valLE_bytesLE (v k : Nat) : valLE (bytesLE v k) = v % 256 ^ k := by
  induction k generalizing v with
  | zero => simp [bytesLE, valLE, Nat.mod_one]
  | succ k ih =>
    simp only [bytesLE, valLE, ih, Fin.ofNat]
    rw [pow_succ, Nat.mul_comm (256 ^ k) 256, Nat.mod_mul]
    simp

theorem storeU64_length (o : ByteOrder) (v : Nat) : (storeU64 o v).length = 8 := by
  cases o <;> simp [storeU64, bytesLE_length]

theorem loadU64_storeU64 (o : ByteOrder) (v : Nat) :
    loadU64 o (storeU64 o v) = v % U64_MOD := by
  cases o <;> simp [loadU64, storeU64, valLE_bytesLE, U64_MOD]

theorem readBytes_window (pre mid post : List Byte) :
    readBytes (pre ++ mid ++ post) pre.length mid.length = mid := by
  apply List.ext_getElem
  · simp [readBytes]
  · intro i h1 h2
    simp [readBytes, List.getD_eq_getElem?_getD, List.getElem?_append_left,
      List.getElem?_append_right, h2]

theorem readBytes_take (buf : List Byte) (m off len : Nat) (h : off + len ≤ m) :
    readBytes (buf.take m) off len = readBytes buf off len := by
  unfold readBytes
  apply List.map_congr_left
  intro i hi
  have hi2 : i < len := List.mem_range.mp hi
  have : off + i < m := by omega
  simp [List.getD_eq_getElem?_getD, List.getElem?_take, this]

theorem memcpyInto_length (buf : List Byte) (off : Nat) (src : List Byte) :
    (memcpyInto buf off src).length = buf.length := by
  simp only [memcpyInto, List.length_take, List.length_append, List.length_drop]
  omega

theorem memcpyInto_eq (buf : List Byte) (off : Nat) (src : List Byte)
    (h : off + src.length ≤ buf.length) :
    memcpyInto buf off src = buf.take off ++ src ++ buf.drop (off + src.length) := by
  unfold memcpyInto
  apply List.take_of_length_le
  simp only [List.length_take, List.length_append, List.length_drop]
  omega

theorem fillHeader_length (o : ByteOrder) (seq : Nat) (nowNs : Int) (buf : List Byte) :
    (fillHeader o seq nowNs buf).length = buf.length := by
  simp only [fillHeader, memcpyInto_length]

theorem fillHeader_eq (o : ByteOrder) (seq : Nat) (nowNs : Int) (buf : List Byte)
    (h : 16 ≤ buf.length) :
    fillHeader o seq nowNs buf
      = storeU64 o seq ++ storeU64 o (toU64 nowNs) ++ buf.drop 16 := by
  have h1 : (storeU64 o seq).length = 8 := storeU64_length o seq
  have h2 : (storeU64 o (toU64 nowNs)).length = 8 := storeU64_length o _
  unfold fillHeader
  rw [memcpyInto_eq buf 0 (storeU64 o seq) (by omega),
    memcpyInto_eq _ 8 (storeU64 o (toU64 nowNs))
      (by simp only [List.length_take, List.length_append, List.length_drop]; omega)]
  simp [h1, h2, List.take_append_eq_append_take, List.drop_append_eq_append_drop]

theorem fillHeader_drop (o : ByteOrder) (seq : Nat) (nowNs : Int) (buf : List Byte)
    (h : 16 ≤ buf.length) :
    (fillHeader o seq nowNs buf).drop 16 = buf.drop 16 := by
  have h1 : (storeU64 o seq).length = 8 := storeU64_length o seq
  have h2 : (storeU64 o (toU64 nowNs)).length = 8 := storeU64_length o _
  rw [fillHeader_eq o seq nowNs buf h]
  simp [List.drop_append_eq_append_drop, h1, h2]

theorem initialBuf_length (pktBytes : Nat) : (initialBuf pktBytes).length = max pktBytes 16 := by
  unfold initialBuf clampPktBytes headerSize
  split <;> simp <;> omega

theorem initialBuf_ge (pktBytes : Nat) : 16 ≤ (initialBuf pktBytes).length := by
  rw [initialBuf_length]
  omega

theorem readSeq_fillHeader (o : ByteOrder) (seq : Nat) (nowNs : Int) (buf : List Byte)
    (h : 16 ≤ buf.length) :
    readBytes (fillHeader o seq nowNs buf) 0 8 = storeU64 o seq := by
  have hw := readBytes_window [] (storeU64 o seq) (storeU64 o (toU64 nowNs) ++ buf.drop 16)
  rw [storeU64_length] at hw
  rw [fillHeader_eq o seq nowNs buf h]
  simpa using hw

theorem readSendNs_fillHeader (o : ByteOrder) (seq : Nat) (nowNs : Int) (buf : List Byte)
    (h : 16 ≤ buf.length) :
    readBytes (fillHeader o seq nowNs buf) 8 8 = storeU64 o (toU64 nowNs) := by
  have hw := readBytes_window (storeU64 o seq) (storeU64 o (toU64 nowNs)) (buf.drop 16)
  rw [storeU64_length, storeU64_length] at hw
  rw [fillHeader_eq o seq nowNs buf h]
  exact hw

theorem datagramSeq_fillHeader (o : ByteOrder) (seq : Nat) (nowNs : Int) (buf : List Byte)
    (h : 16 ≤ buf.length) :
    datagramSeq o (fillHeader o seq nowNs buf) = seq % U64_MOD := by
  unfold datagramSeq
  rw [readSeq_fillHeader o seq nowNs buf h, loadU64_storeU64]

/-! ## Lemmas on machine integers -/

theorem toU64_lt (x : Int) : toU64 x < U64_MOD := by
  unfold toU64 U64_MOD; omega

theorem toInt64_toU64 (x : Int) (h : fitsInt64 x) : toInt64 (toU64 x) = x := by
  unfold fitsInt64 I64_HALF at h
  unfold toInt64 toU64 U64_MOD I64_HALF
  split <;> omega

theorem wrapInt64_of_fits (x : Int) (h : fitsInt64 x) : wrapInt64 x = x :=
  toInt64_toU64 x h

theorem tdiv_thousand (a : Int) :
    (0 ≤ a → Int.tdiv a 1000 = a / 1000) ∧ (a < 0 → Int.tdiv a 1000 = -((-a) / 1000)) := by
  constructor
  · intro h; exact Int.tdiv_eq_ediv h (by decide)
  · intro h
    have h1 : Int.tdiv (-(-a)) 1000 = -(Int.tdiv (-a) 1000) := Int.neg_tdiv _ _
    rw [neg_neg] at h1
    rw [h1, Int.tdiv_eq_ediv (by omega) (by decide)]

/-! ## Lemmas on the send loop -/

theorem sendLoop_sendAfter (o : ByteOrder) (total : Nat) (intervalUs : Int) (env : SenderEnv)
    (k fuel : Nat) (st : SendState) (hseq : st.seq < U64_MOD)
    (hcond : ∀ j, j < k → (st.seq + j) % U64_MOD ≤ total)
    (hok : ∀ j, j < k → env.sendOk (st.calls + j) = true) :
    sendLoop o total intervalUs env (k + fuel) st
      = sendLoop o total intervalUs env fuel (sendAfter o intervalUs env k st) := by
  induction k generalizing st with
  | zero => simp [sendAfter]
  | succ k ih =>
    have h0 : st.seq ≤ total := by
      have := hcond 0 (by omega)
      rw [Nat.add_zero, Nat.mod_eq_of_lt hseq] at this
      exact this
    have hs0 : env.sendOk st.calls = true := by simpa using hok 0 (by omega)
    rw [show k + 1 + fuel = (k + fuel) + 1 by omega]
    rw [sendLoop]
    simp only [h0, hs0, if_true]
    rw [sendAfter]
    apply ih
    · exact Nat.mod_lt _ (by decide)
    · intro j hj
      have := hcond (j + 1) (by omega)
      simp only [] at this ⊢
      rw [Nat.add_mod, Nat.mod_mod, ← Nat.add_mod]
      rw [show st.seq + 1 + j = st.seq + (j + 1) by omega]
      exact this
    · intro j hj
      have := hok (j + 1) (by omega)
      rw [show st.calls + 1 + j = st.calls + (j + 1) by omega]
      exact this

theorem sendAfter_seq (o : ByteOrder) (intervalUs : Int) (env : SenderEnv)
    (k : Nat) (st : SendState) (hseq : st.seq < U64_MOD) :
    (sendAfter o intervalUs env k st).seq = (st.seq + k) % U64_MOD := by
  induction k generalizing st with
  | zero => simp [sendAfter, Nat.mod_eq_of_lt hseq]
  | succ k ih =>
    rw [sendAfter, ih _ (Nat.mod_lt _ (by decide))]
    simp only []
    rw [Nat.add_mod, Nat.mod_mod, ← Nat.add_mod]
    congr 1
    omega

theorem sendAfter_calls (o : ByteOrder) (intervalUs : Int) (env : SenderEnv)
    (k : Nat) (st : SendState) :
    (sendAfter o intervalUs env k st).calls = st.calls + k := by
  induction k generalizing st with
  | zero => simp [sendAfter]
  | succ k ih =>
    rw [sendAfter, ih]
    simp only []
    omega

theorem sendAfter_seqs (o : ByteOrder) (intervalUs : Int) (env : SenderEnv)
    (k : Nat) (st : SendState) (hseq : st.seq < U64_MOD) (hlen : 16 ≤ st.buf.length) :
    (sendAfter o intervalUs env k st).sent.map (datagramSeq o)
      = st.sent.map (datagramSeq o) ++ (List.range k).map (fun i => (st.seq + i) % U64_MOD) := by
  induction k generalizing st with
  | zero => simp [sendAfter]
  | succ k ih =>
    have hl := fillHeader_length o st.seq (env.nowNs st.calls) st.buf
    rw [sendAfter, ih _ (Nat.mod_lt _ (by decide)) (by simpa [hl] using hlen)]
    simp only [List.map_append, List.map_cons, List.map_nil,
      datagramSeq_fillHeader o st.seq (env.nowNs st.calls) st.buf hlen,
      List.append_assoc, List.singleton_append]
    rw [List.range_succ_eq_map, List.map_cons, List.map_map]
    congr 2
    apply List.map_congr_left
    intro i _
    simp only [Function.comp, Nat.add_zero]
    rw [Nat.add_mod, Nat.mod_mod, ← Nat.add_mod]
    congr 1
    omega

theorem sendAfter_lengths (o : ByteOrder) (intervalUs : Int) (env : SenderEnv)
    (k : Nat) (st : SendState) :
    (sendAfter o intervalUs env k st).sent.map List.length
      = st.sent.map List.length ++ List.replicate k st.buf.length := by
  induction k generalizing st with
  | zero => simp [sendAfter]
  | succ k ih =>
    have hl := fillHeader_length o st.seq (env.nowNs st.calls) st.buf
    rw [sendAfter, ih]
    simp only [List.map_append, List.map_cons, List.map_nil, hl, List.append_assoc,
      List.singleton_append, List.replicate_succ]

theorem sendInit_buf_ge (pktBytes : Nat) : 16 ≤ (sendInit pktBytes).buf.length :=
  initialBuf_ge pktBytes

theorem sendInit_seq_lt (pktBytes : Nat) : (sendInit pktBytes).seq < U64_MOD := by
  simp [sendInit, U64_MOD]

theorem sendLoop_finishes (o : ByteOrder) (total pktBytes : Nat) (intervalUs : Int)
    (env : SenderEnv) (hok : ∀ i, i < total → env.sendOk i = true)
    (htot : total < U64_MOD - 1) (extra : Nat) :
    sendLoop o total intervalUs env (total + (extra + 1)) (sendInit pktBytes)
      = (LoopExit.condFalse, sendAfter o intervalUs env total (sendInit pktBytes)) := by
  rw [sendLoop_sendAfter o total intervalUs env total (extra + 1) (sendInit pktBytes)
    (sendInit_seq_lt pktBytes)]
  · rw [sendLoop]
    have hs := sendAfter_seq o intervalUs env total (sendInit pktBytes) (sendInit_seq_lt pktBytes)
    have h1 : (sendInit pktBytes).seq = 1 := rfl
    rw [h1] at hs
    have : ¬ (sendAfter o intervalUs env total (sendInit pktBytes)).seq ≤ total := by
      rw [hs]; simp only [U64_MOD] at *; omega
    simp [this]
  · intro j hj
    have h1 : (sendInit pktBytes).seq = 1 := rfl
    rw [h1]; simp only [U64_MOD] at *; omega
  · intro j hj
    have h1 : (sendInit pktBytes).calls = 0 := rfl
    rw [h1, Nat.zero_add]; exact hok j hj

theorem sendLoop_never_finishes (o : ByteOrder) (pktBytes : Nat) (intervalUs : Int)
    (env : SenderEnv) (hok : ∀ i, env.sendOk i = true) (fuel : Nat) :
    sendLoop o (U64_MOD - 1) intervalUs env fuel (sendInit pktBytes)
      = (LoopExit.running, sendAfter o intervalUs env fuel (sendInit pktBytes)) := by
  have h := sendLoop_sendAfter o (U64_MOD - 1) intervalUs env fuel 0 (sendInit pktBytes)
    (sendInit_seq_lt pktBytes) (by intro j _; simp only [U64_MOD] at *; omega) (by intro j _; exact hok _)
  rw [Nat.add_zero] at h
  rw [h, sendLoop]

theorem sendLoop_fails (o : ByteOrder) (total pktBytes : Nat) (intervalUs : Int)
    (env : SenderEnv) (k : Nat) (hk1 : 1 ≤ k) (hk : k ≤ total) (htot : total < U64_MOD)
    (hprev : ∀ i, i < k - 1 → env.sendOk i = true) (hfail : env.sendOk (k - 1) = false)
    (extra : Nat) :
    (sendLoop o total intervalUs env (k + extra) (sendInit pktBytes)).1 = LoopExit.sendFailed ∧
    (sendLoop o total intervalUs env (k + extra) (sendInit pktBytes)).2.sent
      = (sendAfter o intervalUs env (k - 1) (sendInit pktBytes)).sent := by
  have h1 : (sendInit pktBytes).seq = 1 := rfl
  have h0 : (sendInit pktBytes).calls = 0 := rfl
  have h := sendLoop_sendAfter o total intervalUs env (k - 1) (extra + 1) (sendInit pktBytes)
    (sendInit_seq_lt pktBytes) (by intro j hj; rw [h1]; simp only [U64_MOD] at *; omega)
    (by intro j hj; rw [h0, Nat.zero_add]; exact hprev j hj)
  rw [show k - 1 + (extra + 1) = k + extra by omega] at h
  rw [h, sendLoop]
  have hs := sendAfter_seq o intervalUs env (k - 1) (sendInit pktBytes) (sendInit_seq_lt pktBytes)
  have hc := sendAfter_calls o intervalUs env (k - 1) (sendInit pktBytes)
  rw [h1] at hs
  rw [h0, Nat.zero_add] at hc
  have hle : (sendAfter o intervalUs env (k - 1) (sendInit pktBytes)).seq ≤ total := by
    rw [hs]; simp only [U64_MOD] at *; omega
  simp [hle, hc, hfail]

/-! ## The sender -/

/-- C10. With every send succeeding, the loop `for (seq = 1; seq <= total; ++seq)`
stops after exactly `total` iterations when `total < 2^64 - 1`: it leaves by its
condition after `total` calls of `sendto`, having sent `total` datagrams with
sequences `1..total`, each of length `max(packet_size, 16)`.  For
`total = 2^64 - 1` it never stops: whatever the number of iterations allowed
it is still running, one datagram sent per iteration; the datagram after the
one with sequence `2^64 - 1` carries sequence 0, and after `2^64` iterations
more than `total` datagrams have been sent. -/
theorem send_loop_counter_limit (o : ByteOrder) (total pktBytes : Nat) (intervalUs : Int)
    (env : SenderEnv) (hok : ∀ i, env.sendOk i = true) :
    (total < U64_MOD - 1 → ∀ fuel, total + 1 ≤ fuel →
      (sendLoop o total intervalUs env fuel (sendInit pktBytes)).1 = LoopExit.condFalse ∧
      (sendLoop o total intervalUs env fuel (sendInit pktBytes)).2.calls = total ∧
      (sendLoop o total intervalUs env fuel (sendInit pktBytes)).2.sent.map (datagramSeq o)
        = (List.range total).map (fun i => i + 1) ∧
      (sendLoop o total intervalUs env fuel (sendInit pktBytes)).2.sent.map List.length
        = List.replicate total (max pktBytes 16)) ∧
    (∀ fuel,
      (sendLoop o (U64_MOD - 1) intervalUs env fuel (sendInit pktBytes)).1 = LoopExit.running ∧
      (sendLoop o (U64_MOD - 1) intervalUs env fuel (sendInit pktBytes)).2.calls = fuel ∧
      (sendLoop o (U64_MOD - 1) intervalUs env fuel (sendInit pktBytes)).2.sent.map
          (datagramSeq o) = (List.range fuel).map (fun i => (i + 1) % U64_MOD)) ∧
    ((sendLoop o (U64_MOD - 1) intervalUs env (U64_MOD + 1) (sendInit pktBytes)).2.sent.map
          (datagramSeq o))[U64_MOD - 2]? = some (U64_MOD - 1) ∧
    ((sendLoop o (U64_MOD - 1) intervalUs env (U64_MOD + 1) (sendInit pktBytes)).2.sent.map
          (datagramSeq o))[U64_MOD - 1]? = some 0 ∧
    U64_MOD - 1 <
      (sendLoop o (U64_MOD - 1) intervalUs env (U64_MOD + 1) (sendInit pktBytes)).2.sent.length := by
  have h1 : (sendInit pktBytes).seq = 1 := rfl
  have h0 : (sendInit pktBytes).calls = 0 := rfl
  have hsent : (sendInit pktBytes).sent = [] := rfl
  have hbuf : (sendInit pktBytes).buf.length = max pktBytes 16 := initialBuf_length pktBytes
  have hrun : ∀ fuel,
      (sendLoop o (U64_MOD - 1) intervalUs env fuel (sendInit pktBytes)).2.sent.map
          (datagramSeq o) = (List.range fuel).map (fun i => (i + 1) % U64_MOD) := by
    intro fuel
    rw [sendLoop_never_finishes o pktBytes intervalUs env hok fuel]
    simp only []
    rw [sendAfter_seqs o intervalUs env fuel _ (sendInit_seq_lt pktBytes)
      (sendInit_buf_ge pktBytes), h1, hsent]
    simp only [List.map_nil, List.nil_append]
    apply List.map_congr_left
    intro i _
    rw [Nat.add_comm]
  refine ⟨?_, ?_, ?_, ?_, ?_⟩
  · intro htot fuel hfuel
    obtain ⟨extra, rfl⟩ : ∃ extra, fuel = total + (extra + 1) := ⟨fuel - total - 1, by omega⟩
    rw [sendLoop_finishes o total pktBytes intervalUs env (fun i _ => hok i) htot extra]
    refine ⟨rfl, ?_, ?_, ?_⟩
    · simp only []
      rw [sendAfter_calls, h0, Nat.zero_add]
    · simp only []
      rw [sendAfter_seqs o intervalUs env total _ (sendInit_seq_lt pktBytes)
        (sendInit_buf_ge pktBytes), h1, hsent]
      simp only [List.map_nil, List.nil_append]
      apply List.map_congr_left
      intro i hi
      have : i < total := List.mem_range.mp hi
      simp only [U64_MOD] at *; omega
    · simp only []
      rw [sendAfter_lengths o intervalUs env total _, hsent, hbuf]
      simp
  · intro fuel
    refine ⟨?_, ?_, hrun fuel⟩
    · rw [sendLoop_never_finishes o pktBytes intervalUs env hok fuel]
    · rw [sendLoop_never_finishes o pktBytes intervalUs env hok fuel]
      simp only []
      rw [sendAfter_calls, h0, Nat.zero_add]
  · rw [hrun, List.getElem?_map, List.getElem?_range (by omega)]
    simp only [Option.map_some']
    congr 1
  · rw [hrun, List.getElem?_map, List.getElem?_range (by omega)]
    simp only [Option.map_some']
    congr 1
  · have := congrArg List.length (hrun (U64_MOD + 1))
    simp only [List.length_map, List.length_range] at this
    omega

/-- Witness of `send_loop_counter_limit`: three packets of 64 bytes. -/
theorem send_loop_counter_limit_witness :
    3 < U64_MOD - 1 ∧ 3 + 1 ≤ 4 ∧
    (sendLoop ByteOrder.little 3 0 steadyEnv 4 (sendInit 64)).1 = LoopExit.condFalse ∧
    (sendLoop ByteOrder.little 3 0 steadyEnv 4 (sendInit 64)).2.calls = 3 ∧
    (sendLoop ByteOrder.little 3 0 steadyEnv 4 (sendInit 64)).2.sent.map
        (datagramSeq ByteOrder.little) = (List.range 3).map (fun i => i + 1) ∧
    (sendLoop ByteOrder.little 3 0 steadyEnv 4 (sendInit 64)).2.sent.map List.length
        = List.replicate 3 (max 64 16) :=
  ⟨by decide, by decide,
    (send_loop_counter_limit ByteOrder.little 3 64 0 steadyEnv (fun _ => rfl)).1
      (by decide) 4 (by decide)⟩

/-- C1, at the failing input `total = 2^64 - 1` with every send succeeding: the
sender has not left `main` after any number of loop iterations, and it has
sent one datagram per iteration, so after `2^64` iterations it has sent more
than `total` datagrams, the last of them with sequence 0. -/
theorem sender_max_total_never_exits (o : ByteOrder) (pktBytes : Nat) (intervalUs : Int)
    (clock : Nat → Int) :
    (∀ fuel,
      (senderMain o ⟨6, U64_MOD - 1, pktBytes, intervalUs⟩
          ⟨true, true, clock, fun _ => true⟩ fuel).exitCode = none ∧
      (senderMain o ⟨6, U64_MOD - 1, pktBytes, intervalUs⟩
          ⟨true, true, clock, fun _ => true⟩ fuel).sent.length = fuel) ∧
    ((senderMain o ⟨6, U64_MOD - 1, pktBytes, intervalUs⟩
          ⟨true, true, clock, fun _ => true⟩ U64_MOD).sent.map (datagramSeq o))[U64_MOD - 1]?
        = some 0 := by
  have hmain : ∀ fuel,
      senderMain o ⟨6, U64_MOD - 1, pktBytes, intervalUs⟩ ⟨true, true, clock, fun _ => true⟩ fuel
        = { exitCode := none, socketOpen := true,
            sent := (sendAfter o intervalUs ⟨true, true, clock, fun _ => true⟩ fuel
              (sendInit pktBytes)).sent,
            stdout := [], stderr := [] } := by
    intro fuel
    simp [senderMain, sendLoop_never_finishes o pktBytes intervalUs
      ⟨true, true, clock, fun _ => true⟩ (fun _ => rfl) fuel]
  have hseqs : ∀ fuel,
      (senderMain o ⟨6, U64_MOD - 1, pktBytes, intervalUs⟩
          ⟨true, true, clock, fun _ => true⟩ fuel).sent.map (datagramSeq o)
        = (List.range fuel).map (fun i => (i + 1) % U64_MOD) := by
    intro fuel
    rw [hmain]
    simp only []
    rw [sendAfter_seqs o intervalUs ⟨true, true, clock, fun _ => true⟩ fuel
      (sendInit pktBytes) (sendInit_seq_lt pktBytes) (sendInit_buf_ge pktBytes)]
    have h1 : (sendInit pktBytes).seq = 1 := rfl
    have hsent : (sendInit pktBytes).sent = [] := rfl
    rw [h1, hsent]
    simp only [List.map_nil, List.nil_append]
    apply List.map_congr_left
    intro i _
    rw [Nat.add_comm]
  constructor
  · intro fuel
    refine ⟨?_, ?_⟩
    · rw [hmain]
    · have := congrArg List.length (hseqs fuel)
      simpa using this
  · rw [hseqs, List.getElem?_map, List.getElem?_range (by simp only [U64_MOD]; omega)]
    simp only [Option.map_some']
    congr 1

/-- C6, as amended.  If the sends of the datagrams `1..k-1` succeed and the send
of datagram `k` (`1 <= k <= total`) fails, the sender leaves its loop: the
datagrams sent are exactly those with sequences `1..k-1`, `perror("sendto")`
is the report of the failure, the socket is closed and the exit code is 0. -/
theorem send_failure_stops_sender (o : ByteOrder) (args : SenderArgs) (env : SenderEnv)
    (k fuel : Nat) (hargc : 6 ≤ args.argc) (hsock : env.socketOk = true)
    (hip : env.ipOk = true) (hk1 : 1 ≤ k) (hk : k ≤ args.total) (htot : args.total < U64_MOD)
    (hprev : ∀ i, i < k - 1 → env.sendOk i = true) (hfail : env.sendOk (k - 1) = false)
    (hfuel : k ≤ fuel) :
    (senderMain o args env fuel).sent.map (datagramSeq o)
        = (List.range (k - 1)).map (fun i => i + 1) ∧
    (senderMain o args env fuel).sent.length = k - 1 ∧
    (senderMain o args env fuel).stderr = ["sendto"] ∧
    (senderMain o args env fuel).stdout = ["Sender done.\n"] ∧
    (senderMain o args env fuel).socketOpen = false ∧
    (senderMain o args env fuel).exitCode = some 0 := by
  obtain ⟨extra, rfl⟩ : ∃ extra, fuel = k + extra := ⟨fuel - k, by omega⟩
  have hl := sendLoop_fails o args.total args.pktBytes args.intervalUs env k hk1 hk htot
    hprev hfail extra
  have hseqs := sendAfter_seqs o args.intervalUs env (k - 1) (sendInit args.pktBytes)
    (sendInit_seq_lt args.pktBytes) (sendInit_buf_ge args.pktBytes)
  have h1 : (sendInit args.pktBytes).seq = 1 := rfl
  have hsent : (sendInit args.pktBytes).sent = [] := rfl
  rw [h1, hsent] at hseqs
  simp only [List.map_nil, List.nil_append] at hseqs
  have hseqs2 : (sendAfter o args.intervalUs env (k - 1) (sendInit args.pktBytes)).sent.map
      (datagramSeq o) = (List.range (k - 1)).map (fun i => i + 1) := by
    rw [hseqs]
    apply List.map_congr_left
    intro i hi
    have : i < k - 1 := List.mem_range.mp hi
    simp only [U64_MOD] at *; omega
  have hnot : ¬ args.argc < 6 := by omega
  have hmain : senderMain o args env (k + extra)
      = { exitCode := some 0, socketOpen := false,
          sent := (sendAfter o args.intervalUs env (k - 1) (sendInit args.pktBytes)).sent,
          stdout := ["Sender done.\n"], stderr := ["sendto"] } := by
    obtain ⟨hl1, hl2⟩ := hl
    unfold senderMain
    simp only [hnot, hsock, hip, if_false, Bool.not_true, Bool.false_eq_true]
    generalize sendLoop o args.total args.intervalUs env (k + extra) (sendInit args.pktBytes)
      = r at hl1 hl2
    obtain ⟨e, st⟩ := r
    simp only [] at hl1 hl2
    subst hl1
    simp [hl2]
  rw [hmain]
  refine ⟨hseqs2, ?_, rfl, rfl, rfl, rfl⟩
  have := congrArg List.length hseqs2
  simpa using this

/-- Witness of `send_failure_stops_sender`: five packets requested, the third
send fails. -/
theorem send_failure_stops_sender_witness :
    (senderMain ByteOrder.little ⟨6, 5, 32, 100⟩ (failingEnv 2) 10).sent.map
        (datagramSeq ByteOrder.little) = (List.range (3 - 1)).map (fun i => i + 1) ∧
    (senderMain ByteOrder.little ⟨6, 5, 32, 100⟩ (failingEnv 2) 10).sent.length = 3 - 1 ∧
    (senderMain ByteOrder.little ⟨6, 5, 32, 100⟩ (failingEnv 2) 10).stderr = ["sendto"] ∧
    (senderMain ByteOrder.little ⟨6, 5, 32, 100⟩ (failingEnv 2) 10).stdout
        = ["Sender done.\n"] ∧
    (senderMain ByteOrder.little ⟨6, 5, 32, 100⟩ (failingEnv 2) 10).socketOpen = false ∧
    (senderMain ByteOrder.little ⟨6, 5, 32, 100⟩ (failingEnv 2) 10).exitCode = some 0 :=
  send_failure_stops_sender ByteOrder.little ⟨6, 5, 32, 100⟩ (failingEnv 2) 3 10
    (by decide) rfl rfl (by decide) (by decide) (by decide)
    (by intro i hi; have : i = 0 ∨ i = 1 := by omega
        rcases this with h | h <;> subst h <;> rfl)
    rfl (by decide)

/-- C6, counterexample to the claim as stated: one packet requested and the
first send fails; the sender exits with code 0, so no nonzero exit code
reports the failure. -/
theorem send_failure_exit_code_is_zero :
    (failingEnv 0).sendOk 0 = false ∧
    (senderMain ByteOrder.little ⟨6, 1, 16, 0⟩ (failingEnv 0) 5).sent = [] ∧
    (senderMain ByteOrder.little ⟨6, 1, 16, 0⟩ (failingEnv 0) 5).exitCode = some 0 ∧
    ¬ (∃ c, (senderMain ByteOrder.little ⟨6, 1, 16, 0⟩ (failingEnv 0) 5).exitCode = some c
        ∧ c ≠ 0) := by
  decide

/-! ## The wire format and one observation -/

theorem decodeHeader_take (o : ByteOrder) (buf : List Byte) (n : Int) :
    decodeHeader o (buf.take 16) n = decodeHeader o buf n := by
  unfold decodeHeader
  rw [readBytes_take buf 16 0 8 (by decide), readBytes_take buf 16 8 8 (by decide)]

/-- C5. The buffer the sender builds for sequence `seq` and clock reading
`nowNs` at any requested packet size has length `max(packet_size, 16)`; every
buffer that agrees with it on its first 16 bytes, received with any length
`n >= 16`, is decoded by the receiver, on the same byte order, to the pair
`(seq, bit pattern of nowNs)`, and the receiver's conversion of the second
component to `long long` gives `nowNs` back.  Bytes from offset 16 on do not
enter the decoded values. -/
theorem wire_roundtrip (o : ByteOrder) (seq : Nat) (nowNs : Int) (pktBytes : Nat)
    (rx : List Byte) (n : Int) (hseq : seq < U64_MOD) (hnow : fitsInt64 nowNs)
    (hrx : rx.take 16 = (fillHeader o seq nowNs (initialBuf pktBytes)).take 16)
    (hn : n ≥ 16) :
    (fillHeader o seq nowNs (initialBuf pktBytes)).length = max pktBytes 16 ∧
    decodeHeader o (fillHeader o seq nowNs (initialBuf pktBytes))
        ((fillHeader o seq nowNs (initialBuf pktBytes)).length : Int) = (seq, toU64 nowNs) ∧
    decodeHeader o rx n = (seq, toU64 nowNs) ∧
    toInt64 (decodeHeader o rx n).2 = nowNs := by
  have hlen : (fillHeader o seq nowNs (initialBuf pktBytes)).length = max pktBytes 16 := by
    rw [fillHeader_length, initialBuf_length]
  have hdec : ∀ m : Int, m ≥ 16 →
      decodeHeader o (fillHeader o seq nowNs (initialBuf pktBytes)) m = (seq, toU64 nowNs) := by
    intro m hm
    have hm2 : m ≥ (headerSize : Int) := by simpa [headerSize] using hm
    unfold decodeHeader
    rw [if_pos hm2, readSeq_fillHeader _ _ _ _ (initialBuf_ge pktBytes),
      readSendNs_fillHeader _ _ _ _ (initialBuf_ge pktBytes), loadU64_storeU64,
      loadU64_storeU64, Nat.mod_eq_of_lt hseq, Nat.mod_eq_of_lt (toU64_lt nowNs)]
  have hrxdec : decodeHeader o rx n = (seq, toU64 nowNs) := by
    rw [← decodeHeader_take, hrx, decodeHeader_take, hdec n hn]
  refine ⟨hlen, ?_, hrxdec, ?_⟩
  · apply hdec
    rw [hlen]
    omega
  · rw [hrxdec]
    exact toInt64_toU64 nowNs hnow

/-- Witness of `wire_roundtrip`: sequence 258, a clock reading of 5 ms, a
requested size of 4 bytes, received in a buffer with stale bytes after the
header. -/
theorem wire_roundtrip_witness :
    (fillHeader ByteOrder.big 258 5000000 (initialBuf 4)).length = max 4 16 ∧
    decodeHeader ByteOrder.big (fillHeader ByteOrder.big 258 5000000 (initialBuf 4))
        ((fillHeader ByteOrder.big 258 5000000 (initialBuf 4)).length : Int)
      = (258, toU64 5000000) ∧
    decodeHeader ByteOrder.big
        (fillHeader ByteOrder.big 258 5000000 (initialBuf 4) ++ [7, 7, 7]) 16
      = (258, toU64 5000000) ∧
    toInt64 (decodeHeader ByteOrder.big
        (fillHeader ByteOrder.big 258 5000000 (initialBuf 4) ++ [7, 7, 7]) 16).2 = 5000000 :=
  wire_roundtrip ByteOrder.big 258 5000000 4
    (fillHeader ByteOrder.big 258 5000000 (initialBuf 4) ++ [7, 7, 7]) 16
    (by decide) (by decide) (by decide) (by decide)

theorem observe_full (o : ByteOrder) (buf : List Byte) (n nowNs : Int) (hn : n ≥ 16) :
    observe o buf n nowNs
      = { seq := loadU64 o (readBytes buf 0 8), recvBytes := n,
          latencyUs := Int.tdiv
            (wrapInt64 (nowNs - toInt64 (loadU64 o (readBytes buf 8 8)))) 1000,
          recvNs := nowNs } := by
  have hn2 : n ≥ (headerSize : Int) := by simpa [headerSize] using hn
  simp only [observe, decodeHeader, latencyUs, if_pos hn2]

theorem observe_short (o : ByteOrder) (buf : List Byte) (n nowNs : Int) (hn : n < 16) :
    observe o buf n nowNs = { seq := 0, recvBytes := n, latencyUs := -1, recvNs := nowNs } := by
  have hn2 : ¬ n ≥ (headerSize : Int) := by simp [headerSize]; omega
  simp only [observe, decodeHeader, latencyUs, if_neg hn2]

theorem recvStep_datagram (o : ByteOrder) (s : RecvState) (t : Tick) (n : Nat)
    (buf : List Byte) (nowNs : Int) (hloc : s.loc = Loc.recvCall)
    (hrecv : t.recv = RecvResult.datagram n buf nowNs) :
    recvStep o s t
      = { s with stop := s.stop || t.sigint, loc := Loc.innerTest
                 log := s.log ++ [renderRow (observe o buf (n : Int) nowNs)]
                 recvHist := s.recvHist ++ [RecvResult.datagram n buf nowNs] } := by
  simp [recvStep, hloc, hrecv]

/-- C2, as amended.  For a datagram of length `n >= 16`, whatever the buffer
holds and whatever the receive timestamp, the row has the sequence encoded in
bytes 0..7 as an unsigned 64-bit value, `received_length = n` and
`receive_timestamp = recv_ns`; with `send_ns` the value of bytes 8..15 read as
a signed 64-bit integer (the code converts it with `static_cast<long long>`)
and `recv_ns - send_ns` representable in 64 signed bits, the latency is
`(recv_ns - send_ns) / 1000` rounded toward zero: its product with 1000 lies
between 0 and the difference, less than 1000 away from it.  The row is the
one line the step at `recvfrom` appends to the log. -/
theorem full_header_row (o : ByteOrder) (buf : List Byte) (n : Nat) (nowNs : Int)
    (s : RecvState) (t : Tick) (hn : n ≥ 16)
    (hfit : fitsInt64 (nowNs - toInt64 (loadU64 o (readBytes buf 8 8))))
    (hloc : s.loc = Loc.recvCall) (hrecv : t.recv = RecvResult.datagram n buf nowNs) :
    observe o buf (n : Int) nowNs
      = { seq := loadU64 o (readBytes buf 0 8), recvBytes := (n : Int),
          latencyUs := Int.tdiv (nowNs - toInt64 (loadU64 o (readBytes buf 8 8))) 1000,
          recvNs := nowNs } ∧
    (0 ≤ nowNs - toInt64 (loadU64 o (readBytes buf 8 8)) →
      1000 * (observe o buf (n : Int) nowNs).latencyUs
          ≤ nowNs - toInt64 (loadU64 o (readBytes buf 8 8)) ∧
      nowNs - toInt64 (loadU64 o (readBytes buf 8 8))
          < 1000 * (observe o buf (n : Int) nowNs).latencyUs + 1000) ∧
    (nowNs - toInt64 (loadU64 o (readBytes buf 8 8)) < 0 →
      nowNs - toInt64 (loadU64 o (readBytes buf 8 8))
          ≤ 1000 * (observe o buf (n : Int) nowNs).latencyUs ∧
      1000 * (observe o buf (n : Int) nowNs).latencyUs - 1000
          < nowNs - toInt64 (loadU64 o (readBytes buf 8 8))) ∧
    (recvStep o s t).log = s.log ++ [renderRow (observe o buf (n : Int) nowNs)] := by
  have hn2 : (n : Int) ≥ 16 := by exact_mod_cast hn
  have hobs := observe_full o buf (n : Int) nowNs hn2
  rw [wrapInt64_of_fits _ hfit] at hobs
  have htd := tdiv_thousand (nowNs - toInt64 (loadU64 o (readBytes buf 8 8)))
  refine ⟨hobs, ?_, ?_, ?_⟩
  · intro hd
    rw [hobs]
    simp only []
    rw [htd.1 hd]
    omega
  · intro hd
    rw [hobs]
    simp only []
    rw [htd.2 hd]
    omega
  · rw [recvStep_datagram o s t n buf nowNs hloc hrecv]

/-- Witness of `full_header_row`: a 16-byte datagram with sequence 7 sent at
clock reading 6500 and received at 4000, so that the latency is negative. -/
theorem full_header_row_witness :
    observe ByteOrder.little (fillHeader ByteOrder.little 7 6500 (initialBuf 16)) ((16 : Nat) : Int)
        4000
      = { seq := loadU64 ByteOrder.little
            (readBytes (fillHeader ByteOrder.little 7 6500 (initialBuf 16)) 0 8),
          recvBytes := ((16 : Nat) : Int),
          latencyUs := Int.tdiv (4000 - toInt64 (loadU64 ByteOrder.little
            (readBytes (fillHeader ByteOrder.little 7 6500 (initialBuf 16)) 8 8))) 1000,
          recvNs := 4000 } ∧
    (observe ByteOrder.little (fillHeader ByteOrder.little 7 6500 (initialBuf 16))
        ((16 : Nat) : Int) 4000).latencyUs = -2 :=
  ⟨(full_header_row ByteOrder.little (fillHeader ByteOrder.little 7 6500 (initialBuf 16)) 16
      4000
      { loc := Loc.recvCall, stop := false, log := [csvHeader], stderr := [], recvHist := [] }
      { sigint := false, poll := PollResult.timeout,
        recv := RecvResult.datagram 16 (fillHeader ByteOrder.little 7 6500 (initialBuf 16))
          4000 }
      (by decide) (by decide) rfl rfl).1,
    by decide⟩

/-- C2, counterexample to the claim as stated.  First input: bytes 8..15 all
`0xff` and `recv_ns = 5000`; the encoded unsigned value is `2^64 - 1`, the code
converts it to `-1` and logs latency 5, not `(5000 - (2^64 - 1)) / 1000`.
Second input: bytes 8..15 encode `2^63` (as a signed value `-2^63`) and
`recv_ns = 1000`; the subtraction leaves the 64-bit signed range and the logged
latency is not `(1000 - (-2^63)) / 1000`. -/
theorem full_header_latency_counterexample :
    (observe ByteOrder.little
        [1, 0, 0, 0, 0, 0, 0, 0, 255, 255, 255, 255, 255, 255, 255, 255] 16 5000).latencyUs = 5 ∧
    loadU64 ByteOrder.little (readBytes
        [1, 0, 0, 0, 0, 0, 0, 0, 255, 255, 255, 255, 255, 255, 255, 255] 8 8)
      = 18446744073709551615 ∧
    Int.tdiv (5000 - (18446744073709551615 : Int)) 1000 = -18446744073709546 ∧
    toInt64 (loadU64 ByteOrder.little (readBytes
        [1, 0, 0, 0, 0, 0, 0, 0, 0, 0, 0, 0, 0, 0, 0, 128] 8 8)) = -9223372036854775808 ∧
    (observe ByteOrder.little
        [1, 0, 0, 0, 0, 0, 0, 0, 0, 0, 0, 0, 0, 0, 0, 128] 16 1000).latencyUs
      = -9223372036854774 ∧
    Int.tdiv (1000 - (-9223372036854775808 : Int)) 1000 = 9223372036854776 := by
  decide

/-- C3. For a datagram of length `n < 16`, whatever the buffer holds, the row is
`(0, n, -1, recv_ns)`: sentinel sequence 0, sentinel latency -1, the true
length; and the step at `recvfrom` appends exactly this one line to the log. -/
theorem short_datagram_row (o : ByteOrder) (buf : List Byte) (n : Nat) (nowNs : Int)
    (s : RecvState) (t : Tick) (hn : n < 16) (hloc : s.loc = Loc.recvCall)
    (hrecv : t.recv = RecvResult.datagram n buf nowNs) :
    observe o buf (n : Int) nowNs
      = { seq := sentinelSeq, recvBytes := (n : Int), latencyUs := sentinelLatency,
          recvNs := nowNs } ∧
    sentinelSeq = 0 ∧ sentinelLatency = -1 ∧
    (recvStep o s t).log
      = s.log ++ [renderRow { seq := 0, recvBytes := (n : Int), latencyUs := -1,
                              recvNs := nowNs }] := by
  have hn2 : (n : Int) < 16 := by exact_mod_cast hn
  have hobs := observe_short o buf (n : Int) nowNs hn2
  refine ⟨hobs, rfl, rfl, ?_⟩
  rw [recvStep_datagram o s t n buf nowNs hloc hrecv, hobs]

/-- Witness of `short_datagram_row`: the datagram of length 4 of the spec. -/
theorem short_datagram_row_witness :
    observe ByteOrder.little [9, 8, 7, 6] ((4 : Nat) : Int) 123456
      = { seq := sentinelSeq, recvBytes := ((4 : Nat) : Int), latencyUs := sentinelLatency,
          recvNs := 123456 } ∧
    sentinelSeq = 0 ∧ sentinelLatency = -1 ∧
    (recvStep ByteOrder.little
        { loc := Loc.recvCall, stop := false, log := [csvHeader], stderr := [], recvHist := [] }
        { sigint := false, poll := PollResult.timeout,
          recv := RecvResult.datagram 4 [9, 8, 7, 6] 123456 }).log
      = [csvHeader] ++ [renderRow { seq := 0, recvBytes := ((4 : Nat) : Int), latencyUs := -1,
                                    recvNs := 123456 }] :=
  short_datagram_row ByteOrder.little [9, 8, 7, 6] 4 123456
    { loc := Loc.recvCall, stop := false, log := [csvHeader], stderr := [], recvHist := [] }
    { sigint := false, poll := PollResult.timeout,
      recv := RecvResult.datagram 4 [9, 8, 7, 6] 123456 }
    (by decide) rfl rfl

/-- C7, as amended.  For a datagram of length `n >= 16` whose encoded sequence
is at least 1, the logged sequence is not the sentinel 0; the logged latency is
the sentinel -1 exactly when the difference `recv_ns - send_ns` computed by the
code lies in `-1999 .. -1000`, and it is non-negative, hence not the sentinel,
whenever `0 <= send_ns <= recv_ns < 2^63`. -/
theorem sentinel_out_of_band (o : ByteOrder) (buf : List Byte) (n nowNs : Int)
    (hn : n ≥ 16) (hseq : 1 ≤ loadU64 o (readBytes buf 0 8)) :
    (observe o buf n nowNs).seq ≠ sentinelSeq ∧
    ((observe o buf n nowNs).latencyUs = sentinelLatency ↔
      -1999 ≤ wrapInt64 (nowNs - toInt64 (loadU64 o (readBytes buf 8 8))) ∧
      wrapInt64 (nowNs - toInt64 (loadU64 o (readBytes buf 8 8))) ≤ -1000) ∧
    (0 ≤ toInt64 (loadU64 o (readBytes buf 8 8)) →
      toInt64 (loadU64 o (readBytes buf 8 8)) ≤ nowNs → nowNs < (I64_HALF : Int) →
      0 ≤ (observe o buf n nowNs).latencyUs ∧
      (observe o buf n nowNs).latencyUs ≠ sentinelLatency) := by
  have hobs := observe_full o buf n nowNs hn
  have htd := tdiv_thousand (wrapInt64 (nowNs - toInt64 (loadU64 o (readBytes buf 8 8))))
  rw [hobs]
  simp only [sentinelSeq, sentinelLatency]
  refine ⟨by omega, ?_, ?_⟩
  · rcases lt_or_le (wrapInt64 (nowNs - toInt64 (loadU64 o (readBytes buf 8 8)))) 0 with h | h
    · rw [htd.2 h]; omega
    · rw [htd.1 h]; omega
  · intro h0 hle hlt
    have hfit : fitsInt64 (nowNs - toInt64 (loadU64 o (readBytes buf 8 8))) := by
      unfold fitsInt64
      simp only [I64_HALF] at *
      omega
    rw [wrapInt64_of_fits _ hfit, (tdiv_thousand _).1 (by omega)]
    omega

/-- Witness of `sentinel_out_of_band`: sequence 3, sent at 1000 and received
at 9000. -/
theorem sentinel_out_of_band_witness :
    (observe ByteOrder.little (fillHeader ByteOrder.little 3 1000 (initialBuf 16)) 16 9000).seq
      ≠ sentinelSeq ∧
    (observe ByteOrder.little (fillHeader ByteOrder.little 3 1000 (initialBuf 16)) 16
      9000).latencyUs ≠ sentinelLatency :=
  ⟨(sentinel_out_of_band ByteOrder.little (fillHeader ByteOrder.little 3 1000 (initialBuf 16))
      16 9000 (by decide) (by decide)).1,
   ((sentinel_out_of_band ByteOrder.little (fillHeader ByteOrder.little 3 1000 (initialBuf 16))
      16 9000 (by decide) (by decide)).2.2 (by decide) (by decide) (by decide)).2⟩

/-- C7, counterexample to the claim as stated: a 16-byte datagram with the valid
sequence 1, sent at clock reading 2000 and received at 1000, is logged with
latency -1, the sentinel latency. -/
theorem sentinel_latency_collision :
    (16 : Int) ≥ 16 ∧
    1 ≤ (observe ByteOrder.little (fillHeader ByteOrder.little 1 2000 (initialBuf 16)) 16
      1000).seq ∧
    (observe ByteOrder.little (fillHeader ByteOrder.little 1 2000 (initialBuf 16)) 16
      1000).latencyUs = sentinelLatency := by
  decide

/-! ## The receive loop -/

theorem recvStep_cases (o : ByteOrder) (s : RecvState) (t : Tick) :
    (recvStep o s t).log = s.log ∧ (recvStep o s t).recvHist = s.recvHist ∨
    (s.loc = Loc.recvCall ∧ rowOf o t.recv = none ∧ (recvStep o s t).log = s.log ∧
      (recvStep o s t).recvHist = s.recvHist ++ [t.recv]) ∨
    (∃ n buf nowNs, s.loc = Loc.recvCall ∧ t.recv = RecvResult.datagram n buf nowNs ∧
      (recvStep o s t).log = s.log ++ [renderRow (observe o buf (n : Int) nowNs)] ∧
      (recvStep o s t).recvHist = s.recvHist ++ [t.recv]) := by
  unfold recvStep
  cases hl : s.loc with
  | exited => simp
  | outerTest => simp only []; split <;> simp
  | pollCall =>
    simp only []
    cases t.poll with
    | eintr => simp
    | error => simp
    | timeout => simp
    | ready p => simp only []; split <;> simp
  | innerTest => simp only []; split <;> simp
  | recvCall =>
    simp only []
    cases hr : t.recv with
    | datagram n buf nowNs =>
      right; right
      refine ⟨n, buf, nowNs, ?_, ?_, ?_, ?_⟩ <;> simp
    | wouldBlock => simp [rowOf]
    | eintr => simp [rowOf]
    | error => simp [rowOf]

theorem recvStep_invariant (o : ByteOrder) (s : RecvState) (t : Tick)
    (h : s.log = csvHeader :: (s.recvHist.filterMap (rowOf o)).map renderRow) :
    (recvStep o s t).log
      = csvHeader :: ((recvStep o s t).recvHist.filterMap (rowOf o)).map renderRow := by
  rcases recvStep_cases o s t with ⟨h1, h2⟩ | ⟨_, h0, h1, h2⟩ | ⟨n, buf, nowNs, _, hr, h1, h2⟩
  · rw [h1, h2, h]
  · rw [h1, h2, h]
    simp [List.filterMap_append, h0]
  · rw [h1, h2, h, hr]
    simp [List.filterMap_append, rowOf]

theorem recvRun_append (o : ByteOrder) (s : RecvState) (pre post : List Tick) :
    recvRun o s (pre ++ post) = recvRun o (recvRun o s pre) post := by
  simp [recvRun, List.foldl_append]

theorem recvRun_invariant (o : ByteOrder) (trace : List Tick) (s : RecvState)
    (h : s.log = csvHeader :: (s.recvHist.filterMap (rowOf o)).map renderRow) :
    (recvRun o s trace).log
      = csvHeader :: ((recvRun o s trace).recvHist.filterMap (rowOf o)).map renderRow := by
  induction trace generalizing s with
  | nil => simpa [recvRun] using h
  | cons t ts ih =>
    have := ih (recvStep o s t) (recvStep_invariant o s t h)
    simpa [recvRun] using this

theorem recvStep_prefix (o : ByteOrder) (s : RecvState) (t : Tick) :
    s.log <+: (recvStep o s t).log := by
  rcases recvStep_cases o s t with ⟨h1, _⟩ | ⟨_, _, h1, _⟩ | ⟨n, buf, nowNs, _, _, h1, _⟩
  · rw [h1]
  · rw [h1]
  · rw [h1]; exact List.prefix_append _ _

theorem recvRun_prefix (o : ByteOrder) (trace : List Tick) (s : RecvState) :
    s.log <+: (recvRun o s trace).log := by
  induction trace generalizing s with
  | nil => simp [recvRun]
  | cons t ts ih =>
    have h1 := recvStep_prefix o s t
    have h2 := ih (recvStep o s t)
    have : recvRun o s (t :: ts) = recvRun o (recvStep o s t) ts := by simp [recvRun]
    rw [this]
    exact h1.trans h2

theorem recvRun_hist (o : ByteOrder) (trace : List Tick) (s : RecvState) :
    ∃ l, (recvRun o s trace).recvHist = s.recvHist ++ l ∧
      List.Sublist l (trace.map Tick.recv) := by
  induction trace generalizing s with
  | nil => exact ⟨[], by simp [recvRun], by simp⟩
  | cons t ts ih =>
    obtain ⟨l, hl, hsub⟩ := ih (recvStep o s t)
    have hrun : recvRun o s (t :: ts) = recvRun o (recvStep o s t) ts := by simp [recvRun]
    rw [hrun, hl]
    rcases recvStep_cases o s t with ⟨_, h2⟩ | ⟨_, _, _, h2⟩ | ⟨n, buf, nowNs, _, _, _, h2⟩
    · exact ⟨l, by rw [h2], by simpa using hsub.cons t.recv⟩
    · exact ⟨t.recv :: l, by rw [h2]; simp, by simpa using hsub.cons₂ t.recv⟩
    · exact ⟨t.recv :: l, by rw [h2]; simp, by simpa using hsub.cons₂ t.recv⟩

theorem recvMain_exit_zero (o : ByteOrder) (setup : RecvSetup) (trace : List Tick)
    (h : (recvMain o setup trace).exitCode = some 0) :
    (recvMain o setup trace).csv = some (recvRun o recvInit trace).log ∧
    (recvMain o setup trace).socketOpen = false := by
  unfold recvMain at h ⊢
  by_cases h1 : setup.argc < 4
  · simp [h1] at h
  · by_cases hloc : (recvRun o recvInit trace).loc = Loc.exited
    · cases h2 : setup.socketOk <;> cases h3 : setup.ipOk <;> cases h4 : setup.bindOk <;>
        cases h5 : setup.csvOk <;> simp [h1, h2, h3, h4, h5, hloc] at h ⊢
    · cases h2 : setup.socketOk <;> cases h3 : setup.ipOk <;> cases h4 : setup.bindOk <;>
        cases h5 : setup.csvOk <;> simp [h1, h2, h3, h4, h5, hloc] at h ⊢

/-- C4. Over every trace of environment answers: the log is the header line
followed by one row per `recvfrom` call that returned a datagram, in the order
of the calls, and the calls recorded are answers of the trace in their order;
this is the content of the CSV when `main` returns 0.  A longer trace only
extends the log, and every single step leaves the previous log as a prefix.
The step at `recvfrom` that obtains a datagram appends its row itself and
moves to the test of the stop flag of the drain loop, whether or not `SIGINT`
arrived; and if no recorded call returned a datagram the log is the header
line alone. -/
theorem receiver_log (o : ByteOrder) (pre post : List Tick) :
    (recvRun o recvInit pre).log
      = csvHeader :: ((recvRun o recvInit pre).recvHist.filterMap (rowOf o)).map renderRow ∧
    List.Sublist (recvRun o recvInit pre).recvHist (pre.map Tick.recv) ∧
    (∀ setup : RecvSetup, (recvMain o setup pre).exitCode = some 0 →
      (recvMain o setup pre).csv = some (csvHeader ::
        ((recvRun o recvInit pre).recvHist.filterMap (rowOf o)).map renderRow)) ∧
    (recvRun o recvInit pre).log <+: (recvRun o recvInit (pre ++ post)).log ∧
    (∀ (s : RecvState) (t : Tick), s.log <+: (recvStep o s t).log) ∧
    (∀ (s : RecvState) (t : Tick) (n : Nat) (buf : List Byte) (nowNs : Int),
      s.loc = Loc.recvCall → t.recv = RecvResult.datagram n buf nowNs →
      (recvStep o s t).log = s.log ++ [renderRow (observe o buf (n : Int) nowNs)] ∧
      (recvStep o s t).loc = Loc.innerTest) ∧
    ((∀ r, r ∈ (recvRun o recvInit pre).recvHist → rowOf o r = none) →
      (recvRun o recvInit pre).log = [csvHeader]) := by
  have hinit : recvInit.log
      = csvHeader :: (recvInit.recvHist.filterMap (rowOf o)).map renderRow := rfl
  have hinv := recvRun_invariant o pre recvInit hinit
  refine ⟨hinv, ?_, ?_, ?_, recvStep_prefix o, ?_, ?_⟩
  · obtain ⟨l, hl, hsub⟩ := recvRun_hist o pre recvInit
    rw [hl]
    simpa [recvInit] using hsub
  · intro setup hexit
    rw [(recvMain_exit_zero o setup pre hexit).1, hinv]
  · rw [recvRun_append]
    exact recvRun_prefix o post _
  · intro s t n buf nowNs hloc hrecv
    rw [recvStep_datagram o s t n buf nowNs hloc hrecv]
    exact ⟨rfl, rfl⟩
  · intro hnone
    rw [hinv]
    have : (recvRun o recvInit pre).recvHist.filterMap (rowOf o) = [] := by
      rw [List.filterMap_eq_nil_iff]
      exact hnone
    rw [this]
    rfl

/-- Witness of `receiver_log`: one datagram is drained and `SIGINT` is seen in
the drain loop; the CSV at exit holds the header and the row of the datagram.
In a run where nothing arrives the log is the header alone. -/
theorem receiver_log_witness :
    (recvMain ByteOrder.little okSetup drainTrace).exitCode = some 0 ∧
    (recvMain ByteOrder.little okSetup drainTrace).csv
      = some (csvHeader :: ((recvRun ByteOrder.little recvInit drainTrace).recvHist.filterMap
          (rowOf ByteOrder.little)).map renderRow) ∧
    (recvMain ByteOrder.little okSetup drainTrace).csv = some [csvHeader, "0,4,-1,77\n"] ∧
    (recvStep ByteOrder.little
        { loc := Loc.recvCall, stop := false, log := [csvHeader], stderr := [], recvHist := [] }
        { quietTick with sigint := true, recv := RecvResult.datagram 4 [9, 8, 7, 6] 77 }).log
      = [csvHeader] ++ [renderRow (observe ByteOrder.little [9, 8, 7, 6] ((4 : Nat) : Int) 77)] ∧
    (recvRun ByteOrder.little recvInit idleTrace).log = [csvHeader] :=
  ⟨by decide,
   (receiver_log ByteOrder.little drainTrace []).2.2.1 okSetup (by decide),
   by decide,
   ((receiver_log ByteOrder.little drainTrace []).2.2.2.2.2.1
      { loc := Loc.recvCall, stop := false, log := [csvHeader], stderr := [], recvHist := [] }
      { quietTick with sigint := true, recv := RecvResult.datagram 4 [9, 8, 7, 6] 77 }
      4 [9, 8, 7, 6] 77 rfl rfl).1,
   (receiver_log ByteOrder.little idleTrace []).2.2.2.2.2.2 (by decide)⟩

/-- C8. At the `recvfrom` call of the drain loop: a failure that is neither
would-block nor an interrupt appends no row, leaves `g_stop` as it was (up to
a `SIGINT` delivered meanwhile), reports `recvfrom` and returns control to the
head of the wait loop, not to the end of the program; a would-block result
does the same without a report; an interrupt sets `g_stop` and the next step
leaves the loop.  An interrupt of `poll` leaves the loop at once.  After a
failure or would-block with the stop flag clear, a later readiness leads to a
new drain pass whose datagram is logged. -/
theorem recv_error_handling (o : ByteOrder) (s : RecvState) (t : Tick) :
    (s.loc = Loc.recvCall → t.recv = RecvResult.error →
      (recvStep o s t).log = s.log ∧ (recvStep o s t).stop = (s.stop || t.sigint) ∧
      (recvStep o s t).stderr = s.stderr ++ ["recvfrom"] ∧
      (recvStep o s t).loc = Loc.outerTest ∧ (recvStep o s t).loc ≠ Loc.exited) ∧
    (s.loc = Loc.recvCall → t.recv = RecvResult.wouldBlock →
      (recvStep o s t).log = s.log ∧ (recvStep o s t).stop = (s.stop || t.sigint) ∧
      (recvStep o s t).stderr = s.stderr ∧
      (recvStep o s t).loc = Loc.outerTest ∧ (recvStep o s t).loc ≠ Loc.exited) ∧
    (s.loc = Loc.recvCall → t.recv = RecvResult.eintr →
      (recvStep o s t).log = s.log ∧ (recvStep o s t).stop = true ∧
      ∀ t2 : Tick, (recvStep o (recvStep o s t) t2).loc = Loc.exited ∧
        (recvStep o (recvStep o s t) t2).log = s.log) ∧
    (s.loc = Loc.pollCall → t.poll = PollResult.eintr →
      (recvStep o s t).loc = Loc.exited ∧ (recvStep o s t).log = s.log) ∧
    (s.loc = Loc.recvCall → (t.recv = RecvResult.error ∨ t.recv = RecvResult.wouldBlock) →
      s.stop = false → t.sigint = false →
      ∀ (t1 t2 t3 t4 : Tick) (n : Nat) (buf : List Byte) (nowNs : Int),
        t1.sigint = false → t2.sigint = false → t2.poll = PollResult.ready true →
        t3.sigint = false → t4.recv = RecvResult.datagram n buf nowNs →
        (recvStep o (recvStep o s t) t1).loc = Loc.pollCall ∧
        (recvRun o (recvStep o s t) [t1, t2, t3, t4]).log
          = s.log ++ [renderRow (observe o buf (n : Int) nowNs)]) := by
  refine ⟨?_, ?_, ?_, ?_, ?_⟩
  · intro hloc hrecv
    simp [recvStep, hloc, hrecv]
  · intro hloc hrecv
    simp [recvStep, hloc, hrecv]
  · intro hloc hrecv
    simp [recvStep, hloc, hrecv]
  · intro hloc hpoll
    simp [recvStep, hloc, hpoll]
  · intro hloc hrecv hstop hsig t1 t2 t3 t4 n buf nowNs h1 h2 hp2 h3 h4
    rcases hrecv with hrecv | hrecv <;>
      simp [recvRun, recvStep, hloc, hrecv, hstop, hsig, h1, h2, hp2, h3, h4]

/-- Witness of `recv_error_handling`: a failing `recvfrom` in the drain loop,
followed by a new readiness and a datagram of 4 bytes, which is logged. -/
theorem recv_error_handling_witness :
    (recvStep ByteOrder.little
        { loc := Loc.recvCall, stop := false, log := [csvHeader], stderr := [], recvHist := [] }
        { quietTick with recv := RecvResult.error }).loc = Loc.outerTest ∧
    (recvStep ByteOrder.little
        { loc := Loc.recvCall, stop := false, log := [csvHeader], stderr := [], recvHist := [] }
        { quietTick with recv := RecvResult.error }).log = [csvHeader] ∧
    (recvRun ByteOrder.little
        (recvStep ByteOrder.little
          { loc := Loc.recvCall, stop := false, log := [csvHeader], stderr := [], recvHist := [] }
          { quietTick with recv := RecvResult.error })
        [quietTick, { quietTick with poll := PollResult.ready true }, quietTick,
         { quietTick with recv := RecvResult.datagram 4 [9, 8, 7, 6] 77 }]).log
      = [csvHeader] ++ [renderRow (observe ByteOrder.little [9, 8, 7, 6] ((4 : Nat) : Int) 77)] ∧
    (recvStep ByteOrder.little
        { loc := Loc.pollCall, stop := false, log := [csvHeader], stderr := [], recvHist := [] }
        { quietTick with poll := PollResult.eintr }).loc = Loc.exited :=
  ⟨((recv_error_handling ByteOrder.little
      { loc := Loc.recvCall, stop := false, log := [csvHeader], stderr := [], recvHist := [] }
      { quietTick with recv := RecvResult.error }).1 rfl rfl).2.2.2.1,
   ((recv_error_handling ByteOrder.little
      { loc := Loc.recvCall, stop := false, log := [csvHeader], stderr := [], recvHist := [] }
      { quietTick with recv := RecvResult.error }).1 rfl rfl).1,
   ((recv_error_handling ByteOrder.little
      { loc := Loc.recvCall, stop := false, log := [csvHeader], stderr := [], recvHist := [] }
      { quietTick with recv := RecvResult.error }).2.2.2.2 rfl (Or.inl rfl) rfl rfl
      quietTick { quietTick with poll := PollResult.ready true } quietTick
      { quietTick with recv := RecvResult.datagram 4 [9, 8, 7, 6] 77 } 4 [9, 8, 7, 6] 77
      rfl rfl rfl rfl rfl).2,
   ((recv_error_handling ByteOrder.little
      { loc := Loc.pollCall, stop := false, log := [csvHeader], stderr := [], recvHist := [] }
      { quietTick with poll := PollResult.eintr }).2.2.2.1 rfl rfl).1⟩

/-! ## Exit paths and the socket -/

theorem socket_closed_after_loop (o : ByteOrder) (total pktBytes : Nat) (intervalUs : Int)
    (clock : Nat → Int) (sendOk : Nat → Bool) (fuel : Nat) (trace : List Tick) :
    (∀ code, (senderMain o ⟨6, total, pktBytes, intervalUs⟩ ⟨true, true, clock, sendOk⟩
        fuel).exitCode = some code →
      (senderMain o ⟨6, total, pktBytes, intervalUs⟩ ⟨true, true, clock, sendOk⟩
        fuel).socketOpen = false) ∧
    ((recvMain o okSetup trace).exitCode = some 0 →
      (recvMain o okSetup trace).socketOpen = false) := by
  refine ⟨?_, ?_⟩
  · intro code
    unfold senderMain
    simp only [show ¬ (6 : Nat) < 6 by decide, if_false, Bool.not_true, Bool.false_eq_true]
    generalize sendLoop o total intervalUs ⟨true, true, clock, sendOk⟩ fuel (sendInit pktBytes)
      = r
    obtain ⟨e, st⟩ := r
    cases e <;> simp
  · intro h
    exact (recvMain_exit_zero o okSetup trace h).2

/-- C9, at the failing inputs.  The setup failures that follow a successful
`socket` call return 1 without calling `close`, so the socket is still open
when `main` returns: an invalid address in the sender; an invalid address, a
failed `bind` and a CSV that cannot be opened in the receiver. -/
theorem socket_open_on_setup_failure (o : ByteOrder) (total pktBytes : Nat) (intervalUs : Int)
    (clock : Nat → Int) (sendOk : Nat → Bool) (fuel : Nat) (bindOk csvOk : Bool)
    (trace : List Tick) :
    (senderMain o ⟨6, total, pktBytes, intervalUs⟩ ⟨true, false, clock, sendOk⟩ fuel).exitCode
      = some 1 ∧
    (senderMain o ⟨6, total, pktBytes, intervalUs⟩ ⟨true, false, clock, sendOk⟩ fuel).socketOpen
      = true ∧
    (recvMain o ⟨4, true, false, bindOk, csvOk⟩ trace).exitCode = some 1 ∧
    (recvMain o ⟨4, true, false, bindOk, csvOk⟩ trace).socketOpen = true ∧
    (recvMain o ⟨4, true, true, false, csvOk⟩ trace).exitCode = some 1 ∧
    (recvMain o ⟨4, true, true, false, csvOk⟩ trace).socketOpen = true ∧
    (recvMain o ⟨4, true, true, true, false⟩ trace).exitCode = some 1 ∧
    (recvMain o ⟨4, true, true, true, false⟩ trace).socketOpen = true :=
  ⟨by simp [senderMain], by simp [senderMain], by simp [recvMain], by simp [recvMain],
    by simp [recvMain], by simp [recvMain], by simp [recvMain], by simp [recvMain]⟩

end UdpProbe
